import Mathlib

/-!
Verification of the izypower_cloud data-acquisition pipeline:
an authenticated HTTP client with token-lifecycle management and
retry/backoff (`custom_components/izypower_cloud/client.py`) and the
snapshot aggregator (`custom_components/izypower_cloud/__init__.py`).
Network and Python-library behaviour (HTTP responses, base64+JSON
decoding, the random jitter source) are supplied as oracle parameters;
all control flow, truthiness tests, defaulting and error handling are
translated directly from the source.
-/

mutual
/-- A JSON value as produced by `json.loads`.  Numbers are modelled as
rationals. -/
inductive JsonVal where
  | jnull
  | jbool (b : Bool)
  | jnum (q : ℚ)
  | jstr (s : String)
  | jarr (elems : JsonList)
  | jobj (fields : JsonFields)
deriving DecidableEq

/-- A JSON array. -/
inductive JsonList where
  | nil
  | cons (head : JsonVal) (tail : JsonList)
deriving DecidableEq

/-- The field list of a JSON object. -/
inductive JsonFields where
  | nil
  | cons (key : String) (val : JsonVal) (tail : JsonFields)
deriving DecidableEq
end

/-- View a JSON array as an ordinary list. -/
def JsonList.toList : JsonList → List JsonVal
  | .nil => []
  | .cons h t => h :: t.toList

/-- Python truthiness of a JSON value (`if x:`). -/
def pyTruthy : JsonVal → Bool
  | .jnull => false
  | .jbool b => b
  | .jnum q => decide (q ≠ 0)
  | .jstr s => decide (s ≠ "")
  | .jarr .nil => false
  | .jarr (.cons _ _) => true
  | .jobj .nil => false
  | .jobj (.cons _ _ _) => true

/-- First-match lookup in a JSON object's fields (Python `dict` lookup on
a parsed JSON object; `json.loads` never yields duplicate keys). -/
def lookupField : JsonFields → String → Option JsonVal
  | .nil, _ => none
  | .cons k v rest, key => if k = key then some v else lookupField rest key

/-- Substring test on character lists, used to model Python's `in` on
strings. -/
def strContainsAux (needle : List Char) : List Char → Bool
  | [] => needle.isEmpty
  | c :: cs => needle.isPrefixOf (c :: cs) || strContainsAux needle cs

/-- Python `needle in hay` on strings. -/
def strContains (hay needle : String) : Bool :=
  strContainsAux needle.toList hay.toList

/-- ASCII lower-casing of one character (the characters relevant to the
type names at hand; Python `str.lower` agrees on ASCII). -/
def pyCharLower (c : Char) : Char :=
  if 'A' ≤ c ∧ c ≤ 'Z' then Char.ofNat (c.toNat + 32) else c

/-- Python `s.lower()` on a string. -/
def pyLowerStr (s : String) : String := String.mk (s.toList.map pyCharLower)

/-- Python `.lower()`: succeeds only on strings, raises otherwise. -/
def pyLower : JsonVal → Except Unit String
  | .jstr s => .ok (pyLowerStr s)
  | _ => .error ()

/-- Numeric value of a list of decimal digit characters. -/
def digitsToNat (l : List Char) : Nat :=
  l.foldl (fun a c => a * 10 + (c.toNat - 48)) 0

/-- Models CPython `float()` applied to a string, for plain decimal
literals (optional sign, digits, optional fraction part); exponent and
inf/nan forms are not modelled and yield `none`. -/
def pyFloatString (s : String) : Option ℚ :=
  let cs := ((s.toList.dropWhile Char.isWhitespace).reverse.dropWhile
      Char.isWhitespace).reverse
  let signed : Bool × List Char :=
    match cs with
    | c :: rest =>
      if c = '-' then (true, rest) else if c = '+' then (false, cs.tail) else (false, cs)
    | [] => (false, [])
  let neg := signed.1
  let cs1 := signed.2
  let ip := cs1.takeWhile Char.isDigit
  let rest := cs1.dropWhile Char.isDigit
  let core : Option ℚ :=
    match rest with
    | [] => if ip = [] then none else some ((digitsToNat ip : ℚ))
    | c :: rest2 =>
      if c = '.' then
        let fp := rest2.takeWhile Char.isDigit
        let rest3 := rest2.dropWhile Char.isDigit
        if rest3 = [] ∧ (ip ≠ [] ∨ fp ≠ []) then
          some ((digitsToNat ip : ℚ) + (digitsToNat fp : ℚ) / (10 : ℚ) ^ fp.length)
        else none
      else none
  match core with
  | none => none
  | some q => some (if neg then -q else q)

/-- Python `float()` applied to a JSON value; `none` models a raised
TypeError/ValueError. -/
def pyFloat : JsonVal → Option ℚ
  | .jnum q => some q
  | .jbool b => some (if b then 1 else 0)
  | .jstr s => pyFloatString s
  | _ => none

/-- Split a character list at every occurrence of `sep` (Python
`str.split` with an explicit one-character separator: adjacent
separators and string ends yield empty segments). -/
def splitOnChar (sep : Char) : List Char → List (List Char)
  | [] => [[]]
  | c :: rest =>
    let r := splitOnChar sep rest
    if c = sep then [] :: r
    else
      match r with
      | h :: t => (c :: h) :: t
      | [] => [[c]]

/-- Python `token.split(".")`. -/
def pySplitDot (s : String) : List String :=
  (splitOnChar '.' s.toList).map String.mk

/-! ## Authenticated client (client.py)

The mutable state of `IzyClient` is its `_token` and `_expiry` fields.
Time instants are rationals (seconds).  The composite
`base64.urlsafe_b64decode` + `json.loads` used on the token payload is
an oracle parameter `dec`; `random.random()` draws are an oracle `j`. -/

/-- The token/expiry state of `IzyClient`. -/
structure CState where
  token : Option JsonVal
  expiry : Option ℚ
deriving DecidableEq

/-- `IzyClient._token_is_valid` (client.py lines 96-99): false when the
token or expiry is unset or falsy, else `time.time() < expiry - 10`. -/
def token_is_valid (st : CState) (now : ℚ) : Bool :=
  match st.token, st.expiry with
  | some t, some e =>
    if pyTruthy t = false ∨ e = 0 then false
    else decide (now < e - 10)
  | _, _ => false

/-- `IzyClient._decode_jwt_exp` (client.py lines 35-51): split the token
on dots, require at least two segments, pad the second segment to a
multiple of four with `=`, base64+JSON decode it (`dec`), and return the
`exp` claim when present, truthy and float-convertible. -/
def decode_jwt_exp (dec : String → Option JsonVal) (token : String) : Option ℚ :=
  let parts := pySplitDot token
  if parts.length < 2 then none
  else
    let payloadB64 := parts.getD 1 ""
    let padded :=
      payloadB64 ++ String.mk (List.replicate ((4 - payloadB64.length % 4) % 4) '=')
    match dec padded with
    | none => none
    | some (.jobj fs) =>
      match lookupField fs "exp" with
      | some v => if pyTruthy v then pyFloat v else none
      | none => none
    | some _ => none

/-- `_decode_jwt_exp` applied to the raw token value extracted from the
login body: a non-string token raises inside the method's `try` and so
yields `none`. -/
def decode_jwt_exp_tok (dec : String → Option JsonVal) : JsonVal → Option ℚ
  | .jstr s => decode_jwt_exp dec s
  | _ => none

/-- The expiry stored by `async_login` on success (client.py lines
77-81): the decoded claim when truthy, else login time + 600 seconds. -/
def login_expiry (dec : String → Option JsonVal) (tok : JsonVal) (now : ℚ) : ℚ :=
  match decode_jwt_exp_tok dec tok with
  | some e => if e = 0 then now + 600 else e
  | none => now + 600

/-- Token extraction from the parsed login body (client.py lines 70-72):
`data.get("data", {}).get("token")` when the body is a dict, raising if
the `data` entry is not a dict; a non-dict body leaves the token `None`. -/
def extractToken (body : JsonVal) : Except Unit JsonVal :=
  match body with
  | .jobj fs =>
    match (lookupField fs "data").getD (.jobj .nil) with
    | .jobj fs2 => .ok ((lookupField fs2 "token").getD .jnull)
    | _ => .error ()
  | _ => .ok .jnull

/-- One attempt of `IzyClient.async_login` (client.py lines 59-87).
Oracle: `none` = timeout, `some none` = body not JSON, `some (some b)` =
parsed body `b`.  Returns the `(token, expiry)` pair stored on success. -/
def loginAttempt (dec : String → Option JsonVal) (now : ℚ)
    (o : Option (Option JsonVal)) : Option (JsonVal × ℚ) :=
  match o with
  | none => none
  | some none => none
  | some (some body) =>
    match extractToken body with
    | .error _ => none
    | .ok tok =>
      if pyTruthy tok then some (tok, login_expiry dec tok now) else none

/-- The jittered exponential backoff slept after a failed attempt
(client.py lines 90-91): `1.0 * 2 ** (attempt - 1) + random() * 0.5`. -/
def backoffWait (attempt : Nat) (r : ℚ) : ℚ :=
  1 * 2 ^ (attempt - 1) + r * (1 / 2)

/-- Retry loop of `async_login`, fuelled by the remaining attempt count.
Returns (attempts made, backoffs slept, result). -/
def loginLoopAux (dec : String → Option JsonVal) (now : ℚ)
    (o : Nat → Option (Option JsonVal)) (j : Nat → ℚ) :
    Nat → Nat → Nat × List ℚ × Option (JsonVal × ℚ)
  | _, 0 => (0, [], none)
  | attempt, fuel + 1 =>
    match loginAttempt dec now (o attempt) with
    | some res => (1, [], some res)
    | none =>
      if fuel = 0 then (1, [], none)
      else
        let rest := loginLoopAux dec now o j (attempt + 1) fuel
        (rest.1 + 1, backoffWait attempt (j attempt) :: rest.2.1, rest.2.2)

/-- `max_attempts = 2` in `async_login` (client.py line 56). -/
def login_max_attempts : Nat := 2

/-- `IzyClient.async_login` (client.py lines 53-94): up to two attempts
with jittered backoff between them. -/
def runLogin (dec : String → Option JsonVal) (now : ℚ)
    (o : Nat → Option (Option JsonVal)) (j : Nat → ℚ) :
    Nat × List ℚ × Option (JsonVal × ℚ) :=
  loginLoopAux dec now o j 1 login_max_attempts

/-- Client-level events: a call of the login operation, and issuing the
fetch's own HTTP request. -/
inductive CEvent where
  | loginEv
  | httpEv
deriving DecidableEq

/-- Oracle for one attempt of a fetch operation: the outcome of
`async_login` if invoked before the request, the HTTP response
(`none` = timeout, else status and parsed-JSON body with `none` for a
body that fails JSON parsing), and the outcome of the re-login triggered
by a 401 status. -/
structure AttemptOracle where
  loginRes : Option (JsonVal × ℚ)
  httpRes : Option (Nat × Option JsonVal)
  reloginRes : Option (JsonVal × ℚ)

/-- State update from an `async_login` call: token and expiry are set
only on success; a failing login leaves them untouched. -/
def applyLoginResult (st : CState) (r : Option (JsonVal × ℚ)) : CState :=
  match r with
  | some (t, e) => ⟨some t, some e⟩
  | none => st

/-- The request/response part of one fetch attempt (client.py lines
112-136 and the identical bodies of the other six fetch methods):
401 triggers a fresh login then fails the attempt; 5xx, any other
non-200 status, a timeout, or a JSON parse failure fail the attempt. -/
def httpPhase (st : CState) (o : AttemptOracle) :
    CState × List CEvent × Option JsonVal :=
  match o.httpRes with
  | none => (st, [CEvent.httpEv], none)
  | some (status, body) =>
    if status = 401 then
      (applyLoginResult st o.reloginRes, [CEvent.httpEv, CEvent.loginEv], none)
    else if 500 ≤ status ∧ status < 600 then (st, [CEvent.httpEv], none)
    else if status ≠ 200 then (st, [CEvent.httpEv], none)
    else
      match body with
      | some v => (st, [CEvent.httpEv], some v)
      | none => (st, [CEvent.httpEv], none)

/-- One attempt of a fetch operation (client.py lines 106-141; the seven
fetch methods `async_get_stations`, `async_get_device_page`,
`async_get_component`, `async_get_station_info`, `async_get_report`,
`async_get_device_wifi`, `async_get_battery_links` share this body
verbatim): if the token is not valid, call `async_login` first, and only
on its success issue the HTTP request. -/
def fetchAttempt (st : CState) (now : ℚ) (o : AttemptOracle) :
    CState × List CEvent × Option JsonVal :=
  if token_is_valid st now then httpPhase st o
  else
    match o.loginRes with
    | none => (st, [CEvent.loginEv], none)
    | some (t, e) =>
      let r := httpPhase ⟨some t, some e⟩ o
      (r.1, CEvent.loginEv :: r.2.1, r.2.2)

/-- Retry loop of a fetch operation, fuelled by the remaining attempt
count; the current time is held fixed across attempts.  Returns
(events, backoffs slept, result). -/
def fetchLoopAux (now : ℚ) (o : Nat → AttemptOracle) (j : Nat → ℚ) :
    CState → Nat → Nat → List CEvent × List ℚ × Option JsonVal
  | _, _, 0 => ([], [], none)
  | st, attempt, fuel + 1 =>
    let r := fetchAttempt st now (o attempt)
    match r.2.2 with
    | some v => (r.2.1, [], some v)
    | none =>
      if fuel = 0 then (r.2.1, [], none)
      else
        let rest := fetchLoopAux now o j r.1 (attempt + 1) fuel
        (r.2.1 ++ rest.1, backoffWait attempt (j attempt) :: rest.2.1, rest.2.2)

/-- `max_attempts = 3` in every fetch method (client.py line 103 etc.). -/
def fetch_max_attempts : Nat := 3

/-- A full fetch operation: up to three attempts with jittered backoff
between them. -/
def runFetch (st : CState) (now : ℚ) (o : Nat → AttemptOracle) (j : Nat → ℚ) :
    List CEvent × List ℚ × Option JsonVal :=
  fetchLoopAux now o j st 1 fetch_max_attempts

/-! ## Snapshot aggregator (\_\_init\_\_.py, async_update_data)

The aggregator composes client fetches; each fetch operation (with its
internal retries) is abstracted to its final outcome, supplied by an
environment `Env`.  `.error ()` is a fetch that raised after exhausting
its retries.  The run also produces a trace of the fetch operations
attempted. -/

/-- First-match lookup in a Python-dict model keyed by JSON values. -/
def mapLookup {β : Type} : List (JsonVal × β) → JsonVal → Option β
  | [], _ => none
  | (k, v) :: rest, key => if k = key then some v else mapLookup rest key

/-- Python dict assignment `m[k] = v`: with first-match lookup,
prepending realizes overwrite semantics. -/
def insertJ {β : Type} (l : List (JsonVal × β)) (k : JsonVal) (v : β) :
    List (JsonVal × β) :=
  (k, v) :: l

/-- Python `v.get(k, d)`: raises when `v` is not a dict. -/
def pyGetD (v : JsonVal) (k : String) (d : JsonVal) : Except Unit JsonVal :=
  match v with
  | .jobj fs => .ok ((lookupField fs k).getD d)
  | _ => .error ()

/-- `page_data.get("data", {}).get("records", [])` followed by iterating
the result (\_\_init\_\_.py lines 38 and 92): an error models the raised
exception when a `.get` receives a non-dict or the iteration target is
not a list. -/
def getRecords (v : JsonVal) : Except Unit (List JsonVal) :=
  match pyGetD v "data" (.jobj .nil) with
  | .error _ => .error ()
  | .ok d =>
    match pyGetD d "records" (.jarr .nil) with
    | .error _ => .error ()
    | .ok r =>
      match r with
      | .jarr l => .ok l.toList
      | _ => .error ()

/-- The device-type code→name mapping loop (\_\_init\_\_.py lines 83-89):
each enumeration entry must be a dict; entries whose `value` or `name`
is falsy are skipped; later entries overwrite earlier ones. -/
def buildTypeMapping : List JsonVal → List (JsonVal × JsonVal) →
    Except Unit (List (JsonVal × JsonVal))
  | [], acc => .ok acc
  | .jobj fs :: rest, acc =>
    let code := (lookupField fs "value").getD .jnull
    let name := (lookupField fs "name").getD .jnull
    if pyTruthy code ∧ pyTruthy name then buildTypeMapping rest (insertJ acc code name)
    else buildTypeMapping rest acc
  | _ :: _, _ => .error ()

/-- `station_info.get("deviceTypes", [])` and the mapping loop
(\_\_init\_\_.py lines 84-89); iterating a non-list raises (modelled as
an error). -/
def deviceTypeMapping (info : JsonVal) : Except Unit (List (JsonVal × JsonVal)) :=
  match info with
  | .jobj fs =>
    match (lookupField fs "deviceTypes").getD (.jarr .nil) with
    | .jarr l => buildTypeMapping l.toList []
    | _ => .error ()
  | _ => .error ()

/-- Battery classification (\_\_init\_\_.py lines 112 and 118):
`device_type_mapping.get(code, "").lower()` (raising when the mapped
name is not a string), then `"battery" in name or code == "battery"`. -/
def classifyBattery (mapping : List (JsonVal × JsonVal)) (code : JsonVal) :
    Except Unit Bool :=
  match pyLower ((mapLookup mapping code).getD (.jstr "")) with
  | .error _ => .error ()
  | .ok nameLower =>
    .ok (strContains nameLower "battery" || decide (code = .jstr "battery"))

/-- The date used by `datetime.now()` at the start of a cycle. -/
structure PyDate where
  year : Nat
  month : Nat
  day : Nat
deriving DecidableEq

/-- Two-digit zero padding, as `strftime` `%m` and `%d` produce. -/
def pad2 (n : Nat) : String := if n < 10 then "0" ++ toString n else toString n

/-- `strftime("%Y")`: the decimal year (4 digits for all realistic
years). -/
def fmtY (d : PyDate) : String := toString d.year

/-- `strftime("%Y-%m")`. -/
def fmtYm (d : PyDate) : String := fmtY d ++ "-" ++ pad2 d.month

/-- `strftime("%Y-%m-%d")`. -/
def fmtYmd (d : PyDate) : String := fmtYm d ++ "-" ++ pad2 d.day

/-- The per-window `search_time` selection (\_\_init\_\_.py lines 51-57). -/
def search_time (timeType : String) (now : PyDate) : String :=
  if ["all", "day"].contains timeType then fmtYmd now
  else if timeType = "month" then fmtYm now
  else fmtY now

/-- Trace events: one per client fetch operation the aggregator starts
(each covering that operation's internal retries). -/
inductive FEvent where
  | stationsEv
  | infoEv (sid : JsonVal)
  | reportEv (sid : JsonVal) (timeType : String) (searchTime : String)
  | componentEv (sid : JsonVal) (date : String)
  | devPageEv (sid : JsonVal)
  | wifiEv (sn : JsonVal)
  | batteryEv (sn : JsonVal)
deriving DecidableEq

/-- Outcomes of every fetch operation the aggregator can perform, as
functions of the resource parameters. -/
structure Env where
  stations : Except Unit JsonVal
  stationInfo : JsonVal → Except Unit JsonVal
  report : JsonVal → String → String → Except Unit JsonVal
  component : JsonVal → String → Except Unit JsonVal
  devicePage : JsonVal → Except Unit JsonVal
  deviceWifi : JsonVal → Except Unit JsonVal
  batteryLinks : JsonVal → Except Unit JsonVal

/-- The per-station device entry: `{}` when the device-page block failed
(\_\_init\_\_.py line 131), else the device page augmented with the
`wifi_data` and `battery_links` maps (lines 79, 93-94). -/
inductive DevBlock where
  | failed
  | ok (page : JsonVal) (wifi : List (JsonVal × JsonVal))
      (battery : List (JsonVal × JsonVal))
deriving DecidableEq

/-- The body of the device loop (\_\_init\_\_.py lines 96-128) for one
device record, threading the `wifi_data` and `battery_links` maps.  An
error models an exception escaping to the handler at line 129 (non-dict
record, or `.lower()` on a non-string resolved type name). -/
def processDevice (env : Env) (mapping : List (JsonVal × JsonVal))
    (r : JsonVal) (w b : List (JsonVal × JsonVal)) :
    Except Unit (List (JsonVal × JsonVal) × List (JsonVal × JsonVal)) × List FEvent :=
  match r with
  | .jobj fs =>
    let snA := (lookupField fs "sn").getD .jnull
    let sn := if pyTruthy snA then snA else (lookupField fs "serialNumber").getD .jnull
    let did := (lookupField fs "deviceId").getD .jnull
    if pyTruthy sn then
      let w2 := match env.deviceWifi sn with
        | .ok dta => insertJ w sn dta
        | .error _ => insertJ w sn (.jobj .nil)
      let code := (lookupField fs "deviceType").getD .jnull
      match classifyBattery mapping code with
      | .error _ => (.error (), [FEvent.wifiEv sn])
      | .ok isBat =>
        if isBat then
          let b2 := match env.batteryLinks sn with
            | .ok dta => if pyTruthy did then insertJ b did dta else b
            | .error _ => if pyTruthy did then insertJ b did (.jobj .nil) else b
          (.ok (w2, b2), [FEvent.wifiEv sn, FEvent.batteryEv sn])
        else (.ok (w2, b), [FEvent.wifiEv sn])
    else (.ok (w, b), [])
  | _ => (.error (), [])

/-- The device loop over all device records. -/
def devLoop (env : Env) (mapping : List (JsonVal × JsonVal)) :
    List JsonVal → List (JsonVal × JsonVal) → List (JsonVal × JsonVal) →
    Except Unit (List (JsonVal × JsonVal) × List (JsonVal × JsonVal)) × List FEvent
  | [], w, b => (.ok (w, b), [])
  | r :: rest, w, b =>
    match processDevice env mapping r w b with
    | (.error _, evs) => (.error (), evs)
    | (.ok (w2, b2), evs) =>
      let rr := devLoop env mapping rest w2 b2
      (rr.1, evs ++ rr.2)

/-- The device-page block (\_\_init\_\_.py lines 77-131): fetch the
device page, build the type mapping, extract device records, run the
device loop; any failure inside the block degrades the whole entry to
`{}` (the events of fetches already performed are kept). -/
def processDevicesAll (env : Env) (info : JsonVal) (sid : JsonVal) :
    DevBlock × List FEvent :=
  match env.devicePage sid with
  | .error _ => (.failed, [FEvent.devPageEv sid])
  | .ok page =>
    match deviceTypeMapping info with
    | .error _ => (.failed, [FEvent.devPageEv sid])
    | .ok mapping =>
      match getRecords page with
      | .error _ => (.failed, [FEvent.devPageEv sid])
      | .ok drecs =>
        match devLoop env mapping drecs [] [] with
        | (.error _, evs) => (.failed, FEvent.devPageEv sid :: evs)
        | (.ok (w, b), evs) => (.ok page w b, FEvent.devPageEv sid :: evs)

/-- One iteration of the report-window loop (\_\_init\_\_.py lines
49-64): a failing window yields `{}` for that window only. -/
def reportStep (env : Env) (now : PyDate) (sid : JsonVal) (tt : String) :
    (String × JsonVal) × FEvent :=
  let st := search_time tt now
  match env.report sid tt st with
  | .ok dta => ((tt, dta), FEvent.reportEv sid tt st)
  | .error _ => ((tt, .jobj .nil), FEvent.reportEv sid tt st)

/-- The four report windows, in loop order (\_\_init\_\_.py line 49). -/
def report_windows : List String := ["all", "day", "month", "year"]

/-- The report map built for one station. -/
def buildReports (env : Env) (now : PyDate) (sid : JsonVal) :
    List (String × JsonVal) × List FEvent :=
  (report_windows.map fun tt => (reportStep env now sid tt).1,
   report_windows.map fun tt => (reportStep env now sid tt).2)

/-- Per-station processing (\_\_init\_\_.py lines 42-133): station info
first — its failure skips everything else for the station; then
reports, component (failure → `{}`), and the device-page block. -/
def processStation (env : Env) (now : PyDate) (sid : JsonVal) :
    Option (JsonVal × List (String × JsonVal) × JsonVal × DevBlock) × List FEvent :=
  match env.stationInfo sid with
  | .error _ => (none, [FEvent.infoEv sid])
  | .ok info =>
    let reps := buildReports env now sid
    let comp := match env.component sid (fmtYmd now) with
      | .ok c => c
      | .error _ => JsonVal.jobj .nil
    let dev := processDevicesAll env info sid
    (some (info, reps.1, comp, dev.1),
     FEvent.infoEv sid :: reps.2 ++ [FEvent.componentEv sid (fmtYmd now)] ++ dev.2)

/-- The four per-station result maps of a snapshot. -/
structure SnapMaps where
  stations_info : List (JsonVal × JsonVal)
  stations_reports : List (JsonVal × List (String × JsonVal))
  stations_component : List (JsonVal × JsonVal)
  stations_devices : List (JsonVal × DevBlock)
deriving DecidableEq

/-- The station-record loop (\_\_init\_\_.py lines 39-133): records with
a falsy `stationsId` are skipped; a non-dict record raises at line 40,
outside any handler, aborting the cycle. -/
def processRecords (env : Env) (now : PyDate) :
    List JsonVal → SnapMaps → Except Unit SnapMaps × List FEvent
  | [], acc => (.ok acc, [])
  | r :: rest, acc =>
    match r with
    | .jobj fs =>
      let sid := (lookupField fs "stationsId").getD .jnull
      if pyTruthy sid then
        let pr := processStation env now sid
        let acc2 := match pr.1 with
          | none => acc
          | some (info, reps, comp, dev) =>
            ⟨insertJ acc.stations_info sid info,
             insertJ acc.stations_reports sid reps,
             insertJ acc.stations_component sid comp,
             insertJ acc.stations_devices sid dev⟩
        let rr := processRecords env now rest acc2
        (rr.1, pr.2 ++ rr.2)
      else processRecords env now rest acc
    | _ => (.error (), [])

/-- The result of one successful polling cycle (\_\_init\_\_.py lines
135-141). -/
structure Snapshot where
  stations : JsonVal
  maps : SnapMaps
deriving DecidableEq

/-- One full aggregation cycle (`async_update_data`): the station-list
fetch and the record loop.  A failing station-list fetch, a malformed
station-list body, or a non-dict record aborts the cycle with an error. -/
def runCycle (env : Env) (now : PyDate) : Except Unit Snapshot × List FEvent :=
  match env.stations with
  | .error _ => (.error (), [FEvent.stationsEv])
  | .ok sdata =>
    match getRecords sdata with
    | .error _ => (.error (), [FEvent.stationsEv])
    | .ok recs =>
      match processRecords env now recs ⟨[], [], [], []⟩ with
      | (.error _, evs) => (.error (), FEvent.stationsEv :: evs)
      | (.ok m, evs) => (.ok ⟨sdata, m⟩, FEvent.stationsEv :: evs)

/-- Replace the station-info oracle at one station id, leaving the rest
of the environment untouched. -/
def setStationInfo (env : Env) (s : JsonVal) (r : Except Unit JsonVal) : Env :=
  ⟨env.stations, fun j => if j = s then r else env.stationInfo j,
   env.report, env.component, env.devicePage, env.deviceWifi, env.batteryLinks⟩

/-! ## Helper lemmas -/

theorem token_is_valid_iff (st : CState) (now : ℚ) :
    token_is_valid st now = true ↔
      ((∃ t, st.token = some t ∧ pyTruthy t = true) ∧
       (∃ e, st.expiry = some e ∧ e ≠ 0 ∧ now < e - 10)) := by
  obtain ⟨tok, exp⟩ := st
  cases tok with
  | none => simp [token_is_valid]
  | some t =>
    cases exp with
    | none => simp [token_is_valid]
    | some e =>
      simp only [token_is_valid]
      by_cases h : pyTruthy t = false ∨ e = 0
      · simp only [if_pos h]
        constructor
        · intro hf; cases hf
        · rintro ⟨⟨t2, ht2, htr⟩, ⟨e2, he2, hne, _⟩⟩
          cases ht2; cases he2
          rcases h with h | h
          · rw [htr] at h; cases h
          · exact absurd h hne
      · simp only [if_neg h]
        push_neg at h
        simp only [decide_eq_true_eq]
        constructor
        · intro hlt
          exact ⟨⟨t, rfl, by simpa using h.1⟩, ⟨e, rfl, h.2, hlt⟩⟩
        · rintro ⟨_, ⟨e2, he2, _, hlt⟩⟩
          cases he2; exact hlt

theorem httpPhase_events (st : CState) (o : AttemptOracle) :
    (httpPhase st o).2.1 = [CEvent.httpEv] ∨
    (httpPhase st o).2.1 = [CEvent.httpEv, CEvent.loginEv] := by
  obtain ⟨lr, hr, rr⟩ := o
  cases hr with
  | none => left; rfl
  | some p =>
    obtain ⟨status, body⟩ := p
    simp only [httpPhase]
    split
    · right; rfl
    · split
      · left; rfl
      · split
        · left; rfl
        · cases body <;> simp

theorem fetchAttempt_events_invalid (st : CState) (now : ℚ) (o : AttemptOracle)
    (h : token_is_valid st now = false) :
    (fetchAttempt st now o).2.1 = [CEvent.loginEv] ∨
    ∃ tl, (fetchAttempt st now o).2.1 = CEvent.loginEv :: CEvent.httpEv :: tl := by
  simp only [fetchAttempt, h, Bool.false_eq_true, if_false]
  cases hl : o.loginRes with
  | none => left; rfl
  | some p =>
    obtain ⟨t, e⟩ := p
    right
    rcases httpPhase_events ⟨some t, some e⟩ o with h2 | h2
    · exact ⟨[], by simp [h2]⟩
    · exact ⟨[CEvent.loginEv], by simp [h2]⟩

theorem fetchAttempt_events_valid (st : CState) (now : ℚ) (o : AttemptOracle)
    (h : token_is_valid st now = true) :
    ∃ tl, (fetchAttempt st now o).2.1 = CEvent.httpEv :: tl := by
  simp only [fetchAttempt, h, if_true]
  rcases httpPhase_events st o with h2 | h2
  · exact ⟨[], by simp [h2]⟩
  · exact ⟨[CEvent.loginEv], by simp [h2]⟩

theorem httpPhase_http_count (st : CState) (o : AttemptOracle) :
    (httpPhase st o).2.1.count CEvent.httpEv = 1 := by
  rcases httpPhase_events st o with h | h <;> simp [h]

theorem fetchAttempt_http_count (st : CState) (now : ℚ) (o : AttemptOracle) :
    (fetchAttempt st now o).2.1.count CEvent.httpEv ≤ 1 := by
  by_cases h : token_is_valid st now = true
  · simp only [fetchAttempt, h, if_true]
    exact le_of_eq (httpPhase_http_count st o)
  · rw [Bool.not_eq_true] at h
    simp only [fetchAttempt, h, Bool.false_eq_true, if_false]
    cases hl : o.loginRes with
    | none => simp
    | some p =>
      obtain ⟨t, e⟩ := p
      simpa using le_of_eq (httpPhase_http_count ⟨some t, some e⟩ o)

theorem fetchLoopAux_http_le (now : ℚ) (o : Nat → AttemptOracle) (j : Nat → ℚ) :
    ∀ (fuel : Nat) (st : CState) (attempt : Nat),
      (fetchLoopAux now o j st attempt fuel).1.count CEvent.httpEv ≤ fuel := by
  intro fuel
  induction fuel with
  | zero => intro st attempt; simp [fetchLoopAux]
  | succ n ih =>
    intro st attempt
    simp only [fetchLoopAux]
    cases hr : (fetchAttempt st now (o attempt)).2.2 with
    | some v =>
      simpa using le_trans (fetchAttempt_http_count st now (o attempt)) (by omega)
    | none =>
      by_cases hn : n = 0
      · simp only [hn, if_true]
        simpa using le_trans (fetchAttempt_http_count st now (o attempt)) (by omega)
      · simp only [hn, if_false, List.count_append]
        have h1 := fetchAttempt_http_count st now (o attempt)
        have h2 := ih (fetchAttempt st now (o attempt)).1 (attempt + 1)
        omega

theorem fetchLoopAux_sleeps (now : ℚ) (o : Nat → AttemptOracle) (j : Nat → ℚ) :
    ∀ (fuel : Nat) (st : CState) (attempt k : Nat) (w : ℚ),
      ((fetchLoopAux now o j st attempt fuel).2.1)[k]? = some w →
      w = backoffWait (attempt + k) (j (attempt + k)) := by
  intro fuel
  induction fuel with
  | zero => intro st attempt k w h; simp [fetchLoopAux] at h
  | succ n ih =>
    intro st attempt k w h
    simp only [fetchLoopAux] at h
    rcases hr : (fetchAttempt st now (o attempt)).2.2 with _ | v
    · rw [hr] at h
      by_cases hn : n = 0
      · simp [hn] at h
      · simp only [hn, if_false] at h
        cases k with
        | zero =>
          simp only [List.getElem?_cons_zero, Option.some.injEq] at h
          rw [Nat.add_zero]
          exact h.symm
        | succ m =>
          simp only [List.getElem?_cons_succ] at h
          have heq : attempt + 1 + m = attempt + (m + 1) := by omega
          rw [← heq]
          exact ih (fetchAttempt st now (o attempt)).1 (attempt + 1) m w h
    · rw [hr] at h; simp at h

theorem loginLoopAux_attempts_le (dec : String → Option JsonVal) (now : ℚ)
    (o : Nat → Option (Option JsonVal)) (j : Nat → ℚ) :
    ∀ (fuel attempt : Nat), (loginLoopAux dec now o j attempt fuel).1 ≤ fuel := by
  intro fuel
  induction fuel with
  | zero => intro attempt; simp [loginLoopAux]
  | succ n ih =>
    intro attempt
    simp only [loginLoopAux]
    cases loginAttempt dec now (o attempt) with
    | some res => simp
    | none =>
      by_cases hn : n = 0
      · simp [hn]
      · simp only [hn, if_false]
        have := ih (attempt + 1)
        omega

theorem loginLoopAux_sleeps (dec : String → Option JsonVal) (now : ℚ)
    (o : Nat → Option (Option JsonVal)) (j : Nat → ℚ) :
    ∀ (fuel attempt k : Nat) (w : ℚ),
      ((loginLoopAux dec now o j attempt fuel).2.1)[k]? = some w →
      w = backoffWait (attempt + k) (j (attempt + k)) := by
  intro fuel
  induction fuel with
  | zero => intro attempt k w h; simp [loginLoopAux] at h
  | succ n ih =>
    intro attempt k w h
    simp only [loginLoopAux] at h
    cases hl : loginAttempt dec now (o attempt) with
    | some res => rw [hl] at h; simp at h
    | none =>
      rw [hl] at h
      by_cases hn : n = 0
      · simp [hn] at h
      · simp only [hn, if_false] at h
        cases k with
        | zero =>
          simp only [List.getElem?_cons_zero, Option.some.injEq] at h
          rw [Nat.add_zero]
          exact h.symm
        | succ m =>
          simp only [List.getElem?_cons_succ] at h
          have heq : attempt + 1 + m = attempt + (m + 1) := by omega
          rw [← heq]
          exact ih (attempt + 1) m w h

theorem backoffWait_mem (i : Nat) (r : ℚ) (h0 : 0 ≤ r) (h1 : r < 1) :
    2 ^ (i - 1) ≤ backoffWait i r ∧ backoffWait i r < 2 ^ (i - 1) + 1 / 2 := by
  unfold backoffWait
  have hge : (0 : ℚ) ≤ r * (1 / 2) := mul_nonneg h0 (by norm_num)
  have hlt : r * (1 / 2) < 1 / 2 := by
    have := mul_lt_mul_of_pos_right h1 (show (0 : ℚ) < 1 / 2 by norm_num)
    simpa using this
  constructor <;> linarith

/-! ## Claim theorems -/

/-- Claim C1: `_token_is_valid` is true exactly when the token and the
expiry are both set (to truthy values, per the `not self._token or not
self._expiry` test) and the current time is strictly below expiry minus
10 seconds; in particular a token whose expiry is at most `now + 10` is
invalid, and a fetch attempt made while the token is invalid performs
exactly one login and only then (on login success) issues its HTTP
request; with a valid token no login precedes the request. -/
theorem token_validity_and_inline_relogin :
    (∀ (st : CState) (now : ℚ),
      token_is_valid st now = true ↔
        ((∃ t, st.token = some t ∧ pyTruthy t = true) ∧
         (∃ e, st.expiry = some e ∧ e ≠ 0 ∧ now < e - 10))) ∧
    (∀ (st : CState) (now e : ℚ), st.expiry = some e → e ≤ now + 10 →
      token_is_valid st now = false) ∧
    (∀ (st : CState) (now : ℚ) (o : AttemptOracle),
      token_is_valid st now = false →
      (fetchAttempt st now o).2.1 = [CEvent.loginEv] ∨
      ∃ tl, (fetchAttempt st now o).2.1 = CEvent.loginEv :: CEvent.httpEv :: tl) ∧
    (∀ (st : CState) (now : ℚ) (o : AttemptOracle),
      token_is_valid st now = true →
      ∃ tl, (fetchAttempt st now o).2.1 = CEvent.httpEv :: tl) := by
  refine ⟨token_is_valid_iff, ?_, fetchAttempt_events_invalid, fetchAttempt_events_valid⟩
  intro st now e he hle
  by_contra hne
  rw [Bool.not_eq_false] at hne
  obtain ⟨_, e2, he2, _, hlt⟩ := (token_is_valid_iff st now).mp hne
  rw [he] at he2
  cases he2
  linarith

/-- Witness for C1 at concrete inputs: an expiry within the 10-second
margin is invalid, an invalid-token attempt whose login fails performs
the login and nothing else, and a valid-token attempt goes straight to
the HTTP request. -/
theorem token_validity_and_inline_relogin_witness :
    token_is_valid ⟨some (.jstr "t"), some 20⟩ 15 = false ∧
    ((fetchAttempt ⟨none, none⟩ 0 ⟨none, none, none⟩).2.1 = [CEvent.loginEv] ∨
     ∃ tl, (fetchAttempt ⟨none, none⟩ 0 ⟨none, none, none⟩).2.1 =
       CEvent.loginEv :: CEvent.httpEv :: tl) ∧
    (∃ tl, (fetchAttempt ⟨some (.jstr "t"), some 100⟩ 0
       ⟨none, some (200, some .jnull), none⟩).2.1 = CEvent.httpEv :: tl) := by
  have hvalid : token_is_valid ⟨some (.jstr "t"), some 100⟩ 0 = true :=
    (token_is_valid_iff ⟨some (.jstr "t"), some 100⟩ 0).mpr
      ⟨⟨.jstr "t", rfl, by decide⟩, ⟨100, rfl, by norm_num, by norm_num⟩⟩
  refine ⟨?_, ?_, ?_⟩
  · exact token_validity_and_inline_relogin.2.1 ⟨some (.jstr "t"), some 20⟩ 15 20 rfl
      (by norm_num)
  · exact token_validity_and_inline_relogin.2.2.1 ⟨none, none⟩ 0 ⟨none, none, none⟩ rfl
  · exact token_validity_and_inline_relogin.2.2.2 ⟨some (.jstr "t"), some 100⟩ 0
      ⟨none, some (200, some .jnull), none⟩ hvalid

/-- A concrete payload decoder used with Claim C2: it maps the padded
second segment `eyJleHAiOiIwIn0=` to its genuine urlsafe-base64 + JSON
decoding, the object with the single field "exp": "0". -/
def dec0 : String → Option JsonVal := fun s =>
  if s = "eyJleHAiOiIwIn0=" then some (.jobj (.cons "exp" (.jstr "0") .nil)) else none

/-- Claim C2 counterexample: the token `h.eyJleHAiOiIwIn0.s` has a valid
three-part structure and its second segment decodes to a payload with
the decodable expiry claim "0" (float value 0), yet after a login at
time 1000 the stored expiry is 1000 + 600 = 1600, not the claim. -/
theorem login_expiry_zero_claim_counterexample :
    (pySplitDot "h.eyJleHAiOiIwIn0.s").length = 3 ∧
    dec0 "eyJleHAiOiIwIn0=" = some (.jobj (.cons "exp" (.jstr "0") .nil)) ∧
    decode_jwt_exp dec0 "h.eyJleHAiOiIwIn0.s" = some 0 ∧
    login_expiry dec0 (.jstr "h.eyJleHAiOiIwIn0.s") 1000 = 1600 ∧
    (1600 : ℚ) ≠ 0 := by
  refine ⟨by decide, rfl, rfl, ?_, by norm_num⟩
  have h : login_expiry dec0 (.jstr "h.eyJleHAiOiIwIn0.s") 1000 = (1000 : ℚ) + 600 := rfl
  rw [h]; norm_num

/-- Claim C2 (amended): after a successful login, for every three-part
token whose second segment decodes to a nonzero expiry claim the stored
expiry equals that claim; when decoding fails, the claim is absent, or
the decoded claim equals 0, the stored expiry is login time + 600
seconds. -/
theorem login_expiry_spec (dec : String → Option JsonVal) (tok : String) (now : ℚ) :
    ((pySplitDot tok).length = 3 → ∀ e : ℚ, decode_jwt_exp dec tok = some e →
      e ≠ 0 → login_expiry dec (.jstr tok) now = e) ∧
    (decode_jwt_exp dec tok = none → login_expiry dec (.jstr tok) now = now + 600) ∧
    (decode_jwt_exp dec tok = some 0 → login_expiry dec (.jstr tok) now = now + 600) := by
  refine ⟨?_, ?_, ?_⟩
  · intro _ e hd hne
    simp [login_expiry, decode_jwt_exp_tok, hd, hne]
  · intro hd
    simp [login_expiry, decode_jwt_exp_tok, hd]
  · intro hd
    simp [login_expiry, decode_jwt_exp_tok, hd]

/-- A concrete payload decoder for the C2 witness: `eyJleHAiOjV9` is the
urlsafe-base64 encoding of the JSON object with "exp": 5. -/
def dec1 : String → Option JsonVal := fun s =>
  if s = "eyJleHAiOjV9" then some (.jobj (.cons "exp" (.jnum 5) .nil)) else none

/-- Witness for the amended C2: a three-part token with expiry claim 5
stores expiry 5; a token that is not even two-part stores login time +
600. -/
theorem login_expiry_spec_witness :
    decode_jwt_exp dec1 "a.eyJleHAiOjV9.b" = some 5 ∧
    login_expiry dec1 (.jstr "a.eyJleHAiOjV9.b") 1000 = 5 ∧
    login_expiry dec1 (.jstr "zz") 1000 = 1000 + 600 := by
  refine ⟨rfl, ?_, ?_⟩
  · exact (login_expiry_spec dec1 "a.eyJleHAiOjV9.b" 1000).1 (by decide) 5 rfl
      (by norm_num)
  · exact (login_expiry_spec dec1 "zz" 1000).2.1 rfl

/-- Claim C3: every fetch operation makes at most 3 of its own HTTP
attempts, login makes at most 2 attempts, and (for jitter draws in
[0,1), as `random.random()` guarantees) the k-th backoff slept — the one
between attempt k+1 and attempt k+2 — lies in
[2^((k+1)-1), 2^((k+1)-1) + 0.5), for fetches and login alike. -/
theorem retry_bounds_and_backoff :
    (∀ (st : CState) (now : ℚ) (o : Nat → AttemptOracle) (j : Nat → ℚ),
      (runFetch st now o j).1.count CEvent.httpEv ≤ 3) ∧
    (∀ (dec : String → Option JsonVal) (now : ℚ)
       (o : Nat → Option (Option JsonVal)) (j : Nat → ℚ),
      (runLogin dec now o j).1 ≤ 2) ∧
    (∀ (st : CState) (now : ℚ) (o : Nat → AttemptOracle) (j : Nat → ℚ)
       (k : Nat) (w : ℚ), (∀ a, 0 ≤ j a ∧ j a < 1) →
      ((runFetch st now o j).2.1)[k]? = some w →
      2 ^ k ≤ w ∧ w < 2 ^ k + 1 / 2) ∧
    (∀ (dec : String → Option JsonVal) (now : ℚ)
       (o : Nat → Option (Option JsonVal)) (j : Nat → ℚ) (k : Nat) (w : ℚ),
      (∀ a, 0 ≤ j a ∧ j a < 1) →
      ((runLogin dec now o j).2.1)[k]? = some w →
      2 ^ k ≤ w ∧ w < 2 ^ k + 1 / 2) := by
  refine ⟨?_, ?_, ?_, ?_⟩
  · intro st now o j
    exact fetchLoopAux_http_le now o j 3 st 1
  · intro dec now o j
    exact loginLoopAux_attempts_le dec now o j 2 1
  · intro st now o j k w hj h
    have hw := fetchLoopAux_sleeps now o j 3 st 1 k w h
    have hm := backoffWait_mem (1 + k) (j (1 + k)) (hj (1 + k)).1 (hj (1 + k)).2
    rw [show 1 + k - 1 = k by omega] at hm
    rw [hw]
    exact hm
  · intro dec now o j k w hj h
    have hw := loginLoopAux_sleeps dec now o j 2 1 k w h
    have hm := backoffWait_mem (1 + k) (j (1 + k)) (hj (1 + k)).1 (hj (1 + k)).2
    rw [show 1 + k - 1 = k by omega] at hm
    rw [hw]
    exact hm

/-- Witness for C3: with zero jitter, the first backoff of an
always-failing fetch is exactly 1 second and lies in [1, 1.5). -/
theorem retry_bounds_and_backoff_witness :
    2 ^ 0 ≤ backoffWait 1 0 ∧ backoffWait 1 0 < 2 ^ 0 + 1 / 2 := by
  exact retry_bounds_and_backoff.2.2.1 ⟨none, none⟩ 0 (fun _ => ⟨none, none, none⟩)
    (fun _ => 0) 0 (backoffWait 1 0) (fun a => by norm_num) rfl

/-- Claim C8: the search-time string passed to the report fetch is the
full date for the "day" and "all" windows, year-month for "month", and
the year alone for "year"; at the instant 2024-03-05 these are
"2024-03-05", "2024-03" and "2024". -/
theorem search_time_per_window :
    (∀ d : PyDate, search_time "day" d = fmtYmd d ∧ search_time "all" d = fmtYmd d ∧
      search_time "month" d = fmtYm d ∧ search_time "year" d = fmtY d) ∧
    (search_time "day" ⟨2024, 3, 5⟩ = "2024-03-05" ∧
     search_time "all" ⟨2024, 3, 5⟩ = "2024-03-05" ∧
     search_time "month" ⟨2024, 3, 5⟩ = "2024-03" ∧
     search_time "year" ⟨2024, 3, 5⟩ = "2024") := by
  refine ⟨fun d => ⟨rfl, rfl, rfl, rfl⟩, by decide, by decide, by decide, by decide⟩

/-- First-match lookup in a string-keyed association list (the inner
per-window reports map). -/
def sLookup {β : Type} : List (String × β) → String → Option β
  | [], _ => none
  | (k, v) :: rest, key => if k = key then some v else sLookup rest key

theorem mapLookup_insertJ {β : Type} (l : List (JsonVal × β)) (k k2 : JsonVal) (v : β) :
    mapLookup (insertJ l k v) k2 = if k = k2 then some v else mapLookup l k2 := rfl

theorem reportStep_eq (env : Env) (now : PyDate) (sid : JsonVal) (tt : String) :
    (reportStep env now sid tt).1 =
      (tt, match env.report sid tt (search_time tt now) with
           | .ok dta => dta
           | .error _ => .jobj .nil) := by
  cases h : env.report sid tt (search_time tt now) <;> simp [reportStep, h]

theorem processStation_some_info (env : Env) (now : PyDate) (s : JsonVal)
    (x : JsonVal × List (String × JsonVal) × JsonVal × DevBlock) (evs : List FEvent)
    (h : processStation env now s = (some x, evs)) :
    ∃ v, env.stationInfo s = .ok v := by
  unfold processStation at h
  cases hi : env.stationInfo s with
  | error e => rw [hi] at h; cases h
  | ok v => exact ⟨v, rfl⟩

theorem processStation_none_info (env : Env) (now : PyDate) (s : JsonVal)
    (evs : List FEvent) (h : processStation env now s = (none, evs)) :
    env.stationInfo s = .error () := by
  unfold processStation at h
  cases hi : env.stationInfo s with
  | error e => rfl
  | ok v => rw [hi] at h; cases h

theorem processStation_some_reports (env : Env) (now : PyDate) (s : JsonVal)
    (info : JsonVal) (reps : List (String × JsonVal)) (comp : JsonVal)
    (dev : DevBlock) (evs : List FEvent)
    (h : processStation env now s = (some (info, reps, comp, dev), evs)) :
    reps = (buildReports env now s).1 := by
  unfold processStation at h
  cases hi : env.stationInfo s with
  | error e => rw [hi] at h; cases h
  | ok v =>
    rw [hi] at h
    simp only [Prod.mk.injEq, Option.some.injEq] at h
    exact h.1.2.1.symm

theorem buildReports_fst (env : Env) (now : PyDate) (sid : JsonVal) :
    ((buildReports env now sid).1).map Prod.fst = report_windows := by
  unfold buildReports
  rw [List.map_map]
  have h : ∀ tt ∈ report_windows, (Prod.fst ∘ fun tt => (reportStep env now sid tt).1) tt = id tt := by
    intro tt _
    simp [reportStep_eq env now sid tt]
  rw [List.map_congr_left h, List.map_id]

theorem processRecords_ok (env : Env) (now : PyDate) :
    ∀ (recs : List JsonVal) (acc : SnapMaps),
      (∀ r ∈ recs, ∃ fs, r = .jobj fs) →
      ∃ m evs, processRecords env now recs acc = (.ok m, evs) := by
  intro recs
  induction recs with
  | nil => intro acc _; exact ⟨acc, [], rfl⟩
  | cons r rest ih =>
    intro acc h
    obtain ⟨fs, rfl⟩ := h r (by simp)
    have hrest : ∀ r2 ∈ rest, ∃ fs2, r2 = .jobj fs2 := fun r2 hr2 => h r2 (by simp [hr2])
    simp only [processRecords]
    by_cases hs : pyTruthy ((lookupField fs "stationsId").getD .jnull) = true
    · simp only [hs, if_true]
      cases hp : (processStation env now ((lookupField fs "stationsId").getD .jnull)).1 with
      | none =>
        obtain ⟨m, evs, hm⟩ := ih acc hrest
        exact ⟨m, _, by rw [hm]⟩
      | some x =>
        obtain ⟨info, reps, comp, dev⟩ := x
        obtain ⟨m, evs, hm⟩ := ih ⟨insertJ acc.stations_info ((lookupField fs "stationsId").getD .jnull) info,
          insertJ acc.stations_reports ((lookupField fs "stationsId").getD .jnull) reps,
          insertJ acc.stations_component ((lookupField fs "stationsId").getD .jnull) comp,
          insertJ acc.stations_devices ((lookupField fs "stationsId").getD .jnull) dev⟩ hrest
        exact ⟨m, _, by rw [hm]⟩
    · simp only [Bool.not_eq_true] at hs
      simp only [hs, Bool.false_eq_true, if_false]
      exact ih acc hrest

/-- Claim C5: a station-list fetch failure propagates out of the cycle,
and it is the only fetch failure that does: whenever the station list
is fetched and well-shaped (a list of dict records), the cycle returns
a snapshot no matter how every other fetch behaves. -/
theorem station_list_failure_fatal_and_unique :
    (∀ (env : Env) (now : PyDate), env.stations = .error () →
      (runCycle env now).1 = .error ()) ∧
    (∀ (env : Env) (now : PyDate) (sdata : JsonVal) (recs : List JsonVal),
      env.stations = .ok sdata → getRecords sdata = .ok recs →
      (∀ r ∈ recs, ∃ fs, r = .jobj fs) →
      ∃ snap, (runCycle env now).1 = .ok snap) := by
  constructor
  · intro env now h
    simp [runCycle, h]
  · intro env now sdata recs h1 h2 h3
    obtain ⟨m, evs, hm⟩ := processRecords_ok env now recs ⟨[], [], [], []⟩ h3
    exact ⟨⟨sdata, m⟩, by simp [runCycle, h1, h2, hm]⟩

/-- An environment whose station-list fetch fails. -/
def envC5fail : Env := ⟨.error (), fun _ => .error (), fun _ _ _ => .error (),
  fun _ _ => .error (), fun _ => .error (), fun _ => .error (), fun _ => .error ()⟩

/-- An environment whose station-list fetch returns an empty body while
every other fetch fails. -/
def envC5ok : Env := ⟨.ok (.jobj .nil), fun _ => .error (), fun _ _ _ => .error (),
  fun _ _ => .error (), fun _ => .error (), fun _ => .error (), fun _ => .error ()⟩

/-- Witness for C5: the failing-station-list cycle errors; the cycle
with a station list but all other fetches failing still returns a
snapshot. -/
theorem station_list_failure_witness :
    (runCycle envC5fail ⟨2024, 3, 5⟩).1 = .error () ∧
    ∃ snap, (runCycle envC5ok ⟨2024, 3, 5⟩).1 = .ok snap := by
  constructor
  · exact station_list_failure_fatal_and_unique.1 envC5fail ⟨2024, 3, 5⟩ rfl
  · exact station_list_failure_fatal_and_unique.2 envC5ok ⟨2024, 3, 5⟩ (.jobj .nil) []
      rfl rfl (by simp)

/-- Claim C7: a device is classified as a battery iff the type name
resolved through the station's code→name map contains "battery"
case-insensitively (the code lowercases the resolved name and tests
substring containment of "battery") or the raw type code is exactly the
string "battery"; concretely, resolved name "Battery Pack" and raw code
"battery" classify as battery, resolved name "Inverter" does not. -/
theorem battery_classification :
    (∀ (mapping : List (JsonVal × JsonVal)) (code : JsonVal) (s : String),
      mapLookup mapping code = some (.jstr s) →
      (classifyBattery mapping code = .ok true ↔
        (strContains (pyLowerStr s) "battery" = true ∨ code = .jstr "battery"))) ∧
    (∀ (mapping : List (JsonVal × JsonVal)) (code : JsonVal),
      mapLookup mapping code = none →
      (classifyBattery mapping code = .ok true ↔ code = .jstr "battery")) ∧
    classifyBattery (insertJ [] (.jstr "c1") (.jstr "Battery Pack")) (.jstr "c1") =
      .ok true ∧
    classifyBattery [] (.jstr "battery") = .ok true ∧
    classifyBattery (insertJ [] (.jstr "c2") (.jstr "Inverter")) (.jstr "c2") =
      .ok false := by
  refine ⟨?_, ?_, rfl, rfl, rfl⟩
  · intro mapping code s h
    simp only [classifyBattery, h, Option.getD_some, pyLower, Except.ok.injEq,
      Bool.or_eq_true, decide_eq_true_eq]
  · intro mapping code h
    have hemp : strContains (pyLowerStr "") "battery" = false := rfl
    simp only [classifyBattery, h, Option.getD_none, pyLower, Except.ok.injEq,
      Bool.or_eq_true, decide_eq_true_eq, hemp, Bool.false_eq_true, false_or]

/-- Witness for C7: concrete classifications through the resolved-name
route and through the raw-code route. -/
theorem battery_classification_witness :
    (classifyBattery (insertJ [] (.jstr "bt") (.jstr "Battery Pack")) (.jstr "bt") =
        .ok true ↔
      (strContains (pyLowerStr "Battery Pack") "battery" = true ∨
        JsonVal.jstr "bt" = .jstr "battery")) ∧
    (classifyBattery [] (.jnum 4) = .ok true ↔ JsonVal.jnum 4 = .jstr "battery") := by
  constructor
  · exact battery_classification.1 (insertJ [] (.jstr "bt") (.jstr "Battery Pack"))
      (.jstr "bt") "Battery Pack" rfl
  · exact battery_classification.2.1 [] (.jnum 4) rfl

/-- Claim C10: a battery-classified device with a truthy serial number
but falsy (or absent) device id still gets its battery-links fetch, but
the battery map is returned unchanged: the result is stored nowhere. -/
theorem battery_links_dropped_without_device_id :
    ∀ (env : Env) (mapping : List (JsonVal × JsonVal)) (fs : JsonFields)
      (w b : List (JsonVal × JsonVal)) (snv : JsonVal),
      (lookupField fs "sn").getD .jnull = snv → pyTruthy snv = true →
      pyTruthy ((lookupField fs "deviceId").getD .jnull) = false →
      classifyBattery mapping ((lookupField fs "deviceType").getD .jnull) = .ok true →
      ∃ w2, processDevice env mapping (.jobj fs) w b =
        (.ok (w2, b), [FEvent.wifiEv snv, FEvent.batteryEv snv]) := by
  intro env mapping fs w b snv hsn htr hdid hcls
  cases hw : env.deviceWifi snv with
  | ok wdata =>
    cases hb : env.batteryLinks snv with
    | ok bd =>
      exact ⟨insertJ w snv wdata,
        by simp [processDevice, hsn, htr, hdid, hcls, hw, hb]⟩
    | error e =>
      exact ⟨insertJ w snv wdata,
        by simp [processDevice, hsn, htr, hdid, hcls, hw, hb]⟩
  | error e =>
    cases hb : env.batteryLinks snv with
    | ok bd =>
      exact ⟨insertJ w snv (.jobj .nil),
        by simp [processDevice, hsn, htr, hdid, hcls, hw, hb]⟩
    | error e2 =>
      exact ⟨insertJ w snv (.jobj .nil),
        by simp [processDevice, hsn, htr, hdid, hcls, hw, hb]⟩

/-- An environment whose WiFi and battery-links fetches fail. -/
def envC10 : Env := ⟨.error (), fun _ => .error (), fun _ _ _ => .error (),
  fun _ _ => .error (), fun _ => .error (), fun _ => .error (), fun _ => .error ()⟩

/-- Witness for C10: a battery-typed device record with serial "SN1"
and no deviceId field leaves the battery map empty while the battery
fetch event is traced. -/
theorem battery_links_dropped_witness :
    ∃ w2, processDevice envC10 []
        (.jobj (.cons "sn" (.jstr "SN1") (.cons "deviceType" (.jstr "battery") .nil)))
        [] [] =
      (.ok (w2, []), [FEvent.wifiEv (.jstr "SN1"), FEvent.batteryEv (.jstr "SN1")]) := by
  exact battery_links_dropped_without_device_id envC10 []
    (.cons "sn" (.jstr "SN1") (.cons "deviceType" (.jstr "battery") .nil))
    [] [] (.jstr "SN1") rfl (by decide) (by decide) rfl

/-- Claim C4: a failing sub-resource fetch never propagates and leaves
an empty placeholder at exactly its own scope: (1) any cycle whose
station list arrives well-shaped returns a snapshot regardless of all
other fetch outcomes; (2) each report window's entry is its fetched
data or `{}` exactly when that window's fetch failed; (3) a device
whose WiFi fetch succeeds while its battery-links fetch fails stores
the WiFi data under the serial and `{}` under the device id, leaving
everything else as it was; (4) a station's component entry is its
fetched data or `{}` exactly when the component fetch failed, with the
info, reports and devices entries unaffected; (5) a failing device-page
fetch degrades exactly that station's devices entry to `{}`, attempting
no device-level fetch; (6) each processed device's wifi entry is its
fetched data or `{}` exactly when its WiFi fetch failed, the earlier
wifi entries kept. -/
theorem subresource_failures_isolated :
    (∀ (env : Env) (now : PyDate) (sdata : JsonVal) (recs : List JsonVal),
      env.stations = .ok sdata → getRecords sdata = .ok recs →
      (∀ r ∈ recs, ∃ fs, r = .jobj fs) →
      ∃ snap, (runCycle env now).1 = .ok snap) ∧
    (∀ (env : Env) (now : PyDate) (sid : JsonVal) (tt : String), tt ∈ report_windows →
      sLookup (buildReports env now sid).1 tt =
        some (match env.report sid tt (search_time tt now) with
              | .ok dta => dta
              | .error _ => .jobj .nil)) ∧
    (∀ (env : Env) (mapping : List (JsonVal × JsonVal)) (fs : JsonFields)
       (w b : List (JsonVal × JsonVal)) (snv did wdata : JsonVal),
      (lookupField fs "sn").getD .jnull = snv → pyTruthy snv = true →
      (lookupField fs "deviceId").getD .jnull = did → pyTruthy did = true →
      env.deviceWifi snv = .ok wdata → env.batteryLinks snv = .error () →
      classifyBattery mapping ((lookupField fs "deviceType").getD .jnull) = .ok true →
      processDevice env mapping (.jobj fs) w b =
        (.ok (insertJ w snv wdata, insertJ b did (.jobj .nil)),
         [FEvent.wifiEv snv, FEvent.batteryEv snv])) ∧
    (∀ (env : Env) (now : PyDate) (sid v : JsonVal), env.stationInfo sid = .ok v →
      (processStation env now sid).1 =
        some (v, (buildReports env now sid).1,
          (match env.component sid (fmtYmd now) with
           | .ok c => c
           | .error _ => .jobj .nil),
          (processDevicesAll env v sid).1)) ∧
    (∀ (env : Env) (info sid : JsonVal), env.devicePage sid = .error () →
      processDevicesAll env info sid = (.failed, [FEvent.devPageEv sid])) ∧
    (∀ (env : Env) (mapping : List (JsonVal × JsonVal)) (fs : JsonFields)
       (w b : List (JsonVal × JsonVal)) (snv : JsonVal) (bb : Bool),
      (lookupField fs "sn").getD .jnull = snv → pyTruthy snv = true →
      classifyBattery mapping ((lookupField fs "deviceType").getD .jnull) = .ok bb →
      ∃ b2 evs, processDevice env mapping (.jobj fs) w b =
        (.ok (insertJ w snv
          (match env.deviceWifi snv with
           | .ok d => d
           | .error _ => .jobj .nil), b2), evs)) := by
  refine ⟨?_, ?_, ?_, ?_, ?_, ?_⟩
  · intro env now sdata recs h1 h2 h3
    obtain ⟨m, evs, hm⟩ := processRecords_ok env now recs ⟨[], [], [], []⟩ h3
    exact ⟨⟨sdata, m⟩, by simp [runCycle, h1, h2, hm]⟩
  · intro env now sid tt htt
    simp only [report_windows, List.mem_cons, List.not_mem_nil, or_false] at htt
    rcases htt with rfl | rfl | rfl | rfl <;>
      simp [buildReports, report_windows, sLookup, reportStep_eq]
  · intro env mapping fs w b snv did wdata hsn htr hdid htrd hw hb hcls
    simp [processDevice, hsn, htr, hdid, htrd, hcls, hw, hb]
  · intro env now sid v h
    simp [processStation, h]
  · intro env info sid h
    simp [processDevicesAll, h]
  · intro env mapping fs w b snv bb hsn htr hcls
    cases bb with
    | false =>
      refine ⟨b, [FEvent.wifiEv snv], ?_⟩
      cases hw : env.deviceWifi snv <;> simp [processDevice, hsn, htr, hcls, hw]
    | true =>
      cases hb : env.batteryLinks snv with
      | ok dta =>
        refine ⟨if pyTruthy ((lookupField fs "deviceId").getD .jnull) = true then
            insertJ b ((lookupField fs "deviceId").getD .jnull) dta else b,
          [FEvent.wifiEv snv, FEvent.batteryEv snv], ?_⟩
        cases hw : env.deviceWifi snv <;>
          simp [processDevice, hsn, htr, hcls, hw, hb]
      | error e =>
        refine ⟨if pyTruthy ((lookupField fs "deviceId").getD .jnull) = true then
            insertJ b ((lookupField fs "deviceId").getD .jnull) (.jobj .nil) else b,
          [FEvent.wifiEv snv, FEvent.batteryEv snv], ?_⟩
        cases hw : env.deviceWifi snv <;>
          simp [processDevice, hsn, htr, hcls, hw, hb]

/-- An environment with a well-shaped empty station list and every
other fetch failing. -/
def envC4 : Env := ⟨.ok (.jobj .nil), fun _ => .error (), fun _ _ _ => .error (),
  fun _ _ => .error (), fun _ => .error (), fun _ => .error (), fun _ => .error ()⟩

/-- An environment whose WiFi fetches succeed with a fixed body while
battery-links fetches fail. -/
def envC4dev : Env := ⟨.error (), fun _ => .error (), fun _ _ _ => .error (),
  fun _ _ => .error (), fun _ => .error (), fun _ => .ok (.jnum 9), fun _ => .error ()⟩

/-- An environment whose station-info fetch succeeds while the
component, device-page and WiFi fetches fail. -/
def envC4info : Env := ⟨.error (), fun _ => .ok .jnull, fun _ _ _ => .error (),
  fun _ _ => .error (), fun _ => .error (), fun _ => .error (), fun _ => .error ()⟩

/-- Witness for C4: the all-failing environment still yields a
snapshot; the failing "day" report window gets placeholder `{}`; a
battery device with WiFi data 9 and a failing battery-links fetch
stores 9 under "SN1" and `{}` under device id 3; with a failing
component fetch the station's component entry is the `{}` placeholder
while info, reports and devices entries are intact; a failing
device-page fetch gives the `{}` devices entry with no device-level
fetch; and a non-battery device with a failing WiFi fetch gets `{}` as
its wifi entry. -/
theorem subresource_failures_isolated_witness :
    (∃ snap, (runCycle envC4 ⟨2024, 3, 5⟩).1 = .ok snap) ∧
    sLookup (buildReports envC4 ⟨2024, 3, 5⟩ (.jnum 1)).1 "day" =
      some (match envC4.report (.jnum 1) "day" (search_time "day" ⟨2024, 3, 5⟩) with
            | .ok dta => dta
            | .error _ => .jobj .nil) ∧
    processDevice envC4dev []
        (.jobj (.cons "sn" (.jstr "SN1") (.cons "deviceId" (.jnum 3)
          (.cons "deviceType" (.jstr "battery") .nil)))) [] [] =
      (.ok (insertJ [] (.jstr "SN1") (.jnum 9), insertJ [] (.jnum 3) (.jobj .nil)),
       [FEvent.wifiEv (.jstr "SN1"), FEvent.batteryEv (.jstr "SN1")]) ∧
    (processStation envC4info ⟨2024, 3, 5⟩ (.jnum 1)).1 =
      some (.jnull, (buildReports envC4info ⟨2024, 3, 5⟩ (.jnum 1)).1,
        (match envC4info.component (.jnum 1) (fmtYmd ⟨2024, 3, 5⟩) with
         | .ok c => c
         | .error _ => .jobj .nil),
        (processDevicesAll envC4info .jnull (.jnum 1)).1) ∧
    processDevicesAll envC4info .jnull (.jnum 1) =
      (.failed, [FEvent.devPageEv (.jnum 1)]) ∧
    ∃ b2 evs, processDevice envC4info []
        (.jobj (.cons "sn" (.jstr "SN2") (.cons "deviceType" (.jstr "x") .nil)))
        [] [] =
      (.ok (insertJ [] (.jstr "SN2")
        (match envC4info.deviceWifi (.jstr "SN2") with
         | .ok d => d
         | .error _ => .jobj .nil), b2), evs) := by
  refine ⟨?_, ?_, ?_, ?_, ?_, ?_⟩
  · exact subresource_failures_isolated.1 envC4 ⟨2024, 3, 5⟩ (.jobj .nil) [] rfl rfl
      (by simp)
  · exact subresource_failures_isolated.2.1 envC4 ⟨2024, 3, 5⟩ (.jnum 1) "day"
      (by simp [report_windows])
  · exact subresource_failures_isolated.2.2.1 envC4dev []
      (.cons "sn" (.jstr "SN1") (.cons "deviceId" (.jnum 3)
        (.cons "deviceType" (.jstr "battery") .nil)))
      [] [] (.jstr "SN1") (.jnum 3) (.jnum 9) rfl (by decide) rfl (by decide) rfl rfl rfl
  · exact subresource_failures_isolated.2.2.2.1 envC4info ⟨2024, 3, 5⟩ (.jnum 1)
      .jnull rfl
  · exact subresource_failures_isolated.2.2.2.2.1 envC4info .jnull (.jnum 1) rfl
  · exact subresource_failures_isolated.2.2.2.2.2 envC4info []
      (.cons "sn" (.jstr "SN2") (.cons "deviceType" (.jstr "x") .nil))
      [] [] (.jstr "SN2") false rfl (by decide) rfl

theorem processStation_info_ok (env : Env) (now : PyDate) (s : JsonVal)
    (x : JsonVal × List (String × JsonVal) × JsonVal × DevBlock)
    (h : (processStation env now s).1 = some x) :
    ∃ v, env.stationInfo s = .ok v := by
  cases hi : env.stationInfo s with
  | error e => unfold processStation at h; rw [hi] at h; simp at h
  | ok v => exact ⟨v, rfl⟩

theorem processStation_info_error (env : Env) (now : PyDate) (s : JsonVal)
    (h : (processStation env now s).1 = none) :
    env.stationInfo s = .error () := by
  cases hi : env.stationInfo s with
  | error e => cases e; rfl
  | ok v => unfold processStation at h; rw [hi] at h; simp at h

theorem processStation_reports_shape (env : Env) (now : PyDate) (s : JsonVal)
    (info : JsonVal) (reps : List (String × JsonVal)) (comp : JsonVal) (dev : DevBlock)
    (h : (processStation env now s).1 = some (info, reps, comp, dev)) :
    reps = (buildReports env now s).1 := by
  cases hi : env.stationInfo s with
  | error e => unfold processStation at h; rw [hi] at h; simp at h
  | ok v =>
    unfold processStation at h
    rw [hi] at h
    simp only [Option.some.injEq, Prod.mk.injEq] at h
    exact h.2.1.symm

theorem processRecords_keeps_none (env : Env) (now : PyDate) (s : JsonVal)
    (hs : env.stationInfo s = .error ()) :
    ∀ (recs : List JsonVal) (acc m : SnapMaps),
      (processRecords env now recs acc).1 = .ok m →
      (mapLookup acc.stations_info s = none → mapLookup m.stations_info s = none) ∧
      (mapLookup acc.stations_reports s = none → mapLookup m.stations_reports s = none) ∧
      (mapLookup acc.stations_component s = none → mapLookup m.stations_component s = none) ∧
      (mapLookup acc.stations_devices s = none → mapLookup m.stations_devices s = none) := by
  intro recs
  induction recs with
  | nil =>
    intro acc m h
    simp only [processRecords, Except.ok.injEq] at h
    rw [← h]
    exact ⟨id, id, id, id⟩
  | cons r rest ih =>
    intro acc m h
    cases r with
    | jobj fs =>
      simp only [processRecords] at h
      by_cases hsid : pyTruthy ((lookupField fs "stationsId").getD .jnull) = true
      · rw [if_pos hsid] at h
        cases hp : (processStation env now ((lookupField fs "stationsId").getD .jnull)).1 with
        | none =>
          simp only [hp] at h
          exact ih acc m h
        | some x =>
          obtain ⟨info, reps, comp, dev⟩ := x
          simp only [hp] at h
          have hneq : ((lookupField fs "stationsId").getD .jnull) ≠ s := by
            intro heq
            obtain ⟨v, hv⟩ := processStation_info_ok env now _ _ hp
            rw [heq, hs] at hv
            cases hv
          have hih := ih _ m h
          refine ⟨?_, ?_, ?_, ?_⟩
          · intro hacc
            exact hih.1 (by rw [mapLookup_insertJ, if_neg hneq]; exact hacc)
          · intro hacc
            exact hih.2.1 (by rw [mapLookup_insertJ, if_neg hneq]; exact hacc)
          · intro hacc
            exact hih.2.2.1 (by rw [mapLookup_insertJ, if_neg hneq]; exact hacc)
          · intro hacc
            exact hih.2.2.2 (by rw [mapLookup_insertJ, if_neg hneq]; exact hacc)
      · rw [if_neg hsid] at h
        exact ih acc m h
    | jnull => simp [processRecords] at h
    | jbool b => simp [processRecords] at h
    | jnum q => simp [processRecords] at h
    | jstr s2 => simp [processRecords] at h
    | jarr l => simp [processRecords] at h

theorem processDevice_setStationInfo (env : Env) (s : JsonVal) (r : Except Unit JsonVal)
    (mapping : List (JsonVal × JsonVal)) (rec : JsonVal) (w b : List (JsonVal × JsonVal)) :
    processDevice (setStationInfo env s r) mapping rec w b =
      processDevice env mapping rec w b := by
  cases rec <;> rfl

theorem devLoop_setStationInfo (env : Env) (s : JsonVal) (r : Except Unit JsonVal)
    (mapping : List (JsonVal × JsonVal)) :
    ∀ (recs : List JsonVal) (w b : List (JsonVal × JsonVal)),
      devLoop (setStationInfo env s r) mapping recs w b = devLoop env mapping recs w b := by
  intro recs
  induction recs with
  | nil => intro w b; rfl
  | cons rec rest ih =>
    intro w b
    simp only [devLoop, processDevice_setStationInfo]
    rcases hp : processDevice env mapping rec w b with ⟨res, evs⟩
    cases res with
    | error e => rfl
    | ok p =>
      obtain ⟨w2, b2⟩ := p
      simp only [ih]

theorem processDevicesAll_setStationInfo (env : Env) (s : JsonVal)
    (r : Except Unit JsonVal) (info sid : JsonVal) :
    processDevicesAll (setStationInfo env s r) info sid =
      processDevicesAll env info sid := by
  have hd : (setStationInfo env s r).devicePage = env.devicePage := rfl
  simp only [processDevicesAll, hd, devLoop_setStationInfo]

theorem buildReports_setStationInfo (env : Env) (s : JsonVal) (r : Except Unit JsonVal)
    (now : PyDate) (sid : JsonVal) :
    buildReports (setStationInfo env s r) now sid = buildReports env now sid := rfl

/-- Claim C6: a station whose info fetch fails is isolated: its
per-station run performs only the info fetch (no report, component,
device-page, WiFi or battery fetch), the station is absent from all
four maps of any successful cycle's snapshot, and the processing of
every station with a different id does not depend on that station's
info oracle at all. -/
theorem station_info_failure_isolated :
    (∀ (env : Env) (now : PyDate) (s : JsonVal), env.stationInfo s = .error () →
      processStation env now s = (none, [FEvent.infoEv s])) ∧
    (∀ (env : Env) (now : PyDate) (s : JsonVal) (snap : Snapshot),
      env.stationInfo s = .error () → (runCycle env now).1 = .ok snap →
      mapLookup snap.maps.stations_info s = none ∧
      mapLookup snap.maps.stations_reports s = none ∧
      mapLookup snap.maps.stations_component s = none ∧
      mapLookup snap.maps.stations_devices s = none) ∧
    (∀ (env : Env) (now : PyDate) (s t : JsonVal) (r : Except Unit JsonVal), t ≠ s →
      processStation (setStationInfo env s r) now t = processStation env now t) := by
  refine ⟨?_, ?_, ?_⟩
  · intro env now s h
    simp [processStation, h]
  · intro env now s snap hs hc
    unfold runCycle at hc
    cases hst : env.stations with
    | error e => simp only [hst] at hc; cases hc
    | ok sdata =>
      simp only [hst] at hc
      cases hgr : getRecords sdata with
      | error e => simp only [hgr] at hc; cases hc
      | ok recs =>
        simp only [hgr] at hc
        rcases hpr : processRecords env now recs ⟨[], [], [], []⟩ with ⟨res, evs⟩
        cases res with
        | error e => simp only [hpr] at hc; cases hc
        | ok m =>
          simp only [hpr, Except.ok.injEq] at hc
          have hk := processRecords_keeps_none env now s hs recs ⟨[], [], [], []⟩ m
            (by rw [hpr])
          rw [← hc]
          exact ⟨hk.1 rfl, hk.2.1 rfl, hk.2.2.1 rfl, hk.2.2.2 rfl⟩
  · intro env now s t r ht
    have hstep : (setStationInfo env s r).stationInfo t = env.stationInfo t := by
      simp only [setStationInfo]
      exact if_neg ht
    unfold processStation
    rw [hstep]
    cases env.stationInfo t with
    | error e => rfl
    | ok v =>
      have hcomp : (setStationInfo env s r).component = env.component := rfl
      simp only [buildReports_setStationInfo, processDevicesAll_setStationInfo, hcomp]

/-- The station-list body used by the C6 witness: one record with
stationsId 42. -/
def sdataC6 : JsonVal := .jobj (.cons "data" (.jobj (.cons "records"
  (.jarr (.cons (.jobj (.cons "stationsId" (.jnum 42) .nil)) .nil)) .nil)) .nil)

/-- An environment listing station 42 whose info fetch (and every other
fetch) fails. -/
def envC6 : Env := ⟨.ok sdataC6, fun _ => .error (), fun _ _ _ => .error (),
  fun _ _ => .error (), fun _ => .error (), fun _ => .error (), fun _ => .error ()⟩

/-- Witness for C6: station 42's run stops at the info fetch, the cycle
snapshot has empty maps, and an unrelated station's processing is
unchanged when station 42's info oracle is replaced. -/
theorem station_info_failure_witness :
    processStation envC6 ⟨2024, 3, 5⟩ (.jnum 42) = (none, [FEvent.infoEv (.jnum 42)]) ∧
    (mapLookup (Snapshot.mk sdataC6 ⟨[], [], [], []⟩).maps.stations_info (.jnum 42) = none ∧
     mapLookup (Snapshot.mk sdataC6 ⟨[], [], [], []⟩).maps.stations_reports (.jnum 42) = none ∧
     mapLookup (Snapshot.mk sdataC6 ⟨[], [], [], []⟩).maps.stations_component (.jnum 42) = none ∧
     mapLookup (Snapshot.mk sdataC6 ⟨[], [], [], []⟩).maps.stations_devices (.jnum 42) = none) ∧
    processStation (setStationInfo envC6 (.jnum 42) (.ok .jnull)) ⟨2024, 3, 5⟩ (.jnum 7) =
      processStation envC6 ⟨2024, 3, 5⟩ (.jnum 7) := by
  refine ⟨?_, ?_, ?_⟩
  · exact station_info_failure_isolated.1 envC6 ⟨2024, 3, 5⟩ (.jnum 42) rfl
  · exact station_info_failure_isolated.2.1 envC6 ⟨2024, 3, 5⟩ (.jnum 42)
      ⟨sdataC6, ⟨[], [], [], []⟩⟩ rfl rfl
  · exact station_info_failure_isolated.2.2 envC6 ⟨2024, 3, 5⟩ (.jnum 42) (.jnum 7)
      (.ok .jnull) (by decide)

/-- A station id `k` is "seen" in a record list when some dict record
carries it as a truthy `stationsId` and its info fetch succeeds — the
condition under which the aggregator populates the per-station maps. -/
def stationSeen (env : Env) (recs : List JsonVal) (k : JsonVal) : Prop :=
  pyTruthy k = true ∧ (∃ v, env.stationInfo k = .ok v) ∧
  ∃ fs, JsonVal.jobj fs ∈ recs ∧ (lookupField fs "stationsId").getD .jnull = k

theorem stationSeen_cons (env : Env) (fs : JsonFields) (rest : List JsonVal) (k : JsonVal) :
    stationSeen env (.jobj fs :: rest) k ↔
      (((lookupField fs "stationsId").getD .jnull = k ∧ pyTruthy k = true ∧
        ∃ v, env.stationInfo k = .ok v) ∨ stationSeen env rest k) := by
  unfold stationSeen
  constructor
  · rintro ⟨h1, h2, fs2, hmem, hid⟩
    rcases List.mem_cons.mp hmem with heq | hmem2
    · injection heq with h3
      subst h3
      left
      exact ⟨hid, h1, h2⟩
    · right
      exact ⟨h1, h2, fs2, hmem2, hid⟩
  · rintro (⟨hid, htr, hv⟩ | ⟨h1, h2, fs2, hmem, hid⟩)
    · exact ⟨htr, hv, fs, List.mem_cons_self _ _, hid⟩
    · exact ⟨h1, h2, fs2, List.mem_cons_of_mem _ hmem, hid⟩

theorem processRecords_charact (env : Env) (now : PyDate) :
    ∀ (recs : List JsonVal) (acc m : SnapMaps),
      (processRecords env now recs acc).1 = .ok m →
      ∀ k : JsonVal,
        ((mapLookup m.stations_info k).isSome = true ↔
          (mapLookup acc.stations_info k).isSome = true ∨ stationSeen env recs k) ∧
        ((mapLookup m.stations_reports k).isSome = true ↔
          (mapLookup acc.stations_reports k).isSome = true ∨ stationSeen env recs k) ∧
        ((mapLookup m.stations_component k).isSome = true ↔
          (mapLookup acc.stations_component k).isSome = true ∨ stationSeen env recs k) ∧
        ((mapLookup m.stations_devices k).isSome = true ↔
          (mapLookup acc.stations_devices k).isSome = true ∨ stationSeen env recs k) ∧
        (∀ rep, mapLookup m.stations_reports k = some rep →
          mapLookup acc.stations_reports k = some rep ∨
          rep.map Prod.fst = report_windows) := by
  intro recs
  induction recs with
  | nil =>
    intro acc m h k
    simp only [processRecords, Except.ok.injEq] at h
    subst h
    have hseen : ¬ stationSeen env [] k := by
      rintro ⟨_, _, fs, hmem, _⟩
      simp at hmem
    exact ⟨by simp [hseen], by simp [hseen], by simp [hseen], by simp [hseen],
      fun rep hr => Or.inl hr⟩
  | cons r rest ih =>
    intro acc m h k
    cases r with
    | jobj fs =>
      simp only [processRecords] at h
      by_cases hsid : pyTruthy ((lookupField fs "stationsId").getD .jnull) = true
      · rw [if_pos hsid] at h
        cases hp : (processStation env now ((lookupField fs "stationsId").getD .jnull)).1 with
        | none =>
          simp only [hp] at h
          have hie := processStation_info_error env now _ hp
          have hih := ih acc m h k
          have hsc : stationSeen env (JsonVal.jobj fs :: rest) k ↔
              stationSeen env rest k := by
            rw [stationSeen_cons]
            constructor
            · rintro (⟨hid, htr, v, hv⟩ | hrest)
              · rw [← hid, hie] at hv
                cases hv
              · exact hrest
            · exact Or.inr
          simp only [hsc]
          exact hih
        | some x =>
          obtain ⟨info, reps, comp, dev⟩ := x
          simp only [hp] at h
          obtain ⟨v0, hv0⟩ := processStation_info_ok env now _ _ hp
          have hih := ih _ m h k
          by_cases hk : ((lookupField fs "stationsId").getD .jnull) = k
          · have hseen : stationSeen env (JsonVal.jobj fs :: rest) k := by
              rw [stationSeen_cons]
              left
              exact ⟨hk, by rw [← hk]; exact hsid, v0, by rw [← hk]; exact hv0⟩
            have hrepsv : mapLookup (insertJ acc.stations_reports
                ((lookupField fs "stationsId").getD .jnull) reps) k = some reps := by
              rw [mapLookup_insertJ, if_pos hk]
            refine ⟨?_, ?_, ?_, ?_, ?_⟩
            · exact ⟨fun _ => Or.inr hseen, fun _ => hih.1.mpr
                (Or.inl (by rw [mapLookup_insertJ, if_pos hk]; rfl))⟩
            · exact ⟨fun _ => Or.inr hseen, fun _ => hih.2.1.mpr
                (Or.inl (by rw [hrepsv]; rfl))⟩
            · exact ⟨fun _ => Or.inr hseen, fun _ => hih.2.2.1.mpr
                (Or.inl (by rw [mapLookup_insertJ, if_pos hk]; rfl))⟩
            · exact ⟨fun _ => Or.inr hseen, fun _ => hih.2.2.2.1.mpr
                (Or.inl (by rw [mapLookup_insertJ, if_pos hk]; rfl))⟩
            · intro rep hr
              rcases hih.2.2.2.2 rep hr with hacc2 | hw
              · rw [hrepsv] at hacc2
                injection hacc2 with h4
                right
                rw [← h4, processStation_reports_shape env now _ info reps comp dev hp]
                exact buildReports_fst env now _
              · exact Or.inr hw
          · have hsc : stationSeen env (JsonVal.jobj fs :: rest) k ↔
                stationSeen env rest k := by
              rw [stationSeen_cons]
              constructor
              · rintro (⟨hid, _, _⟩ | hrest)
                · exact absurd hid hk
                · exact hrest
              · exact Or.inr
            have e1 : mapLookup (insertJ acc.stations_info
                ((lookupField fs "stationsId").getD .jnull) info) k =
                mapLookup acc.stations_info k := by
              rw [mapLookup_insertJ, if_neg hk]
            have e2 : mapLookup (insertJ acc.stations_reports
                ((lookupField fs "stationsId").getD .jnull) reps) k =
                mapLookup acc.stations_reports k := by
              rw [mapLookup_insertJ, if_neg hk]
            have e3 : mapLookup (insertJ acc.stations_component
                ((lookupField fs "stationsId").getD .jnull) comp) k =
                mapLookup acc.stations_component k := by
              rw [mapLookup_insertJ, if_neg hk]
            have e4 : mapLookup (insertJ acc.stations_devices
                ((lookupField fs "stationsId").getD .jnull) dev) k =
                mapLookup acc.stations_devices k := by
              rw [mapLookup_insertJ, if_neg hk]
            simp only [hsc]
            rw [← e1, ← e2, ← e3, ← e4]
            exact hih
      · rw [if_neg hsid] at h
        have hih := ih acc m h k
        have hsc : stationSeen env (JsonVal.jobj fs :: rest) k ↔
            stationSeen env rest k := by
          rw [stationSeen_cons]
          constructor
          · rintro (⟨hid, htr, _⟩ | hrest)
            · rw [← hid] at htr
              exact absurd htr hsid
            · exact hrest
          · exact Or.inr
        simp only [hsc]
        exact hih
    | jnull => simp [processRecords] at h
    | jbool b => simp [processRecords] at h
    | jnum q => simp [processRecords] at h
    | jstr s2 => simp [processRecords] at h
    | jarr l => simp [processRecords] at h

/-- Claim C9: every snapshot of a successful cycle has identical key
sets across its stations_info, stations_reports, stations_component and
stations_devices maps — exactly the truthy station ids of the fetched
station list whose info fetch succeeded — and every stations_reports
entry has exactly the keys "all", "day", "month", "year" (in loop
order). -/
theorem snapshot_key_sets (env : Env) (now : PyDate) (snap : Snapshot)
    (h : (runCycle env now).1 = .ok snap) :
    (∃ recs, getRecords snap.stations = .ok recs ∧
      ∀ k : JsonVal,
        ((mapLookup snap.maps.stations_reports k).isSome = true ↔
          (mapLookup snap.maps.stations_info k).isSome = true) ∧
        ((mapLookup snap.maps.stations_component k).isSome = true ↔
          (mapLookup snap.maps.stations_info k).isSome = true) ∧
        ((mapLookup snap.maps.stations_devices k).isSome = true ↔
          (mapLookup snap.maps.stations_info k).isSome = true) ∧
        ((mapLookup snap.maps.stations_info k).isSome = true ↔
          stationSeen env recs k)) ∧
    (∀ (k : JsonVal) (rep : List (String × JsonVal)),
      mapLookup snap.maps.stations_reports k = some rep →
      rep.map Prod.fst = report_windows) := by
  unfold runCycle at h
  cases hst : env.stations with
  | error e => simp only [hst] at h; cases h
  | ok sdata =>
    simp only [hst] at h
    cases hgr : getRecords sdata with
    | error e => simp only [hgr] at h; cases h
    | ok recs =>
      simp only [hgr] at h
      rcases hpr : processRecords env now recs ⟨[], [], [], []⟩ with ⟨res, evs⟩
      cases res with
      | error e => simp only [hpr] at h; cases h
      | ok m =>
        simp only [hpr, Except.ok.injEq] at h
        subst h
        have hch := processRecords_charact env now recs ⟨[], [], [], []⟩ m (by rw [hpr])
        constructor
        · refine ⟨recs, hgr, fun k => ?_⟩
          have hc := hch k
          simp only [mapLookup, Option.isSome_none, Bool.false_eq_true, false_or] at hc
          exact ⟨hc.2.1.trans hc.1.symm, hc.2.2.1.trans hc.1.symm,
            hc.2.2.2.1.trans hc.1.symm, hc.1⟩
        · intro k rep hr
          rcases (hch k).2.2.2.2 rep hr with hacc | hw
          · cases hacc
          · exact hw

/-- The station-list body for the C9 witness: one record with
stationsId 7. -/
def sdataC9 : JsonVal := .jobj (.cons "data" (.jobj (.cons "records"
  (.jarr (.cons (.jobj (.cons "stationsId" (.jnum 7) .nil)) .nil)) .nil)) .nil)

/-- An environment for the C9 witness: one station (id 7) whose info,
reports, component and device-page fetches succeed (the device page is
empty) while WiFi and battery fetches fail. -/
def envC9 : Env := ⟨.ok sdataC9, fun _ => .ok (.jobj .nil), fun _ _ _ => .ok (.jnum 1),
  fun _ _ => .ok (.jnum 2), fun _ => .ok (.jobj .nil), fun _ => .error (),
  fun _ => .error ()⟩

/-- The snapshot the C9 witness cycle produces. -/
def snapC9 : Snapshot := ⟨sdataC9,
  ⟨[(.jnum 7, .jobj .nil)],
   [(.jnum 7, [("all", .jnum 1), ("day", .jnum 1), ("month", .jnum 1),
     ("year", .jnum 1)])],
   [(.jnum 7, .jnum 2)],
   [(.jnum 7, .ok (.jobj .nil) [] [])]⟩⟩

/-- Witness for C9 at the concrete one-station environment: the
reports/info key iff at id 7, and the reports entry of station 7 has
exactly the four window keys. -/
theorem snapshot_key_sets_witness :
    ((mapLookup snapC9.maps.stations_reports (.jnum 7)).isSome = true ↔
      (mapLookup snapC9.maps.stations_info (.jnum 7)).isSome = true) ∧
    ([("all", JsonVal.jnum 1), ("day", JsonVal.jnum 1), ("month", JsonVal.jnum 1),
      ("year", JsonVal.jnum 1)] : List (String × JsonVal)).map Prod.fst =
      report_windows := by
  have h := snapshot_key_sets envC9 ⟨2024, 3, 5⟩ snapC9 rfl
  obtain ⟨⟨recs, _, hks⟩, hrep⟩ := h
  exact ⟨(hks (.jnum 7)).1, hrep (.jnum 7) _ rfl⟩

example : pyTruthy (.jstr "0") = true := by decide
example : lookupField (.cons "a" (.jnum 1) (.cons "b" .jnull .nil)) "b" = some .jnull := rfl
example : pyFloatString "0" = some 0 := rfl
example : pyFloatString "12.5" = some (25 / 2) := by
  have h : pyFloatString "12.5" = some (((12 : Nat) : ℚ) + ((5 : Nat) : ℚ) / 10 ^ 1) := rfl
  rw [h]; norm_num
example : pyFloatString "-3" = some (-3) := rfl
example : pyFloatString "x3" = none := by decide
example : strContains "battery pack" "battery" = true := by decide
example : strContains "inverter" "battery" = false := by decide
